import Mathlib

/-!
Shallow embedding of the Daily Routine task manager (main JS file):
`TaskManager`, `SettingsManager` and `NotificationManager`.

Environmental inputs that the JS reads from the runtime are passed
explicitly: `Date.now()` becomes a `nowMs : Nat` argument,
`new Date().toISOString()` a `nowISO : String` argument, and today's
`YYYY-MM-DD` string a `today : String` argument.  `localStorage` writes
(`saveTasks` / `saveNotifications`) are modelled by a `saveCount`
counter on the store state, so "performs no persistence write" is
`saveCount` unchanged.  JS arrays become `List`, objects become
structures, and `undefined` fields of caller-supplied data become
`Option`.  The JS `x || d` default on string fields treats the empty
string as falsy, which `jsOrString` reproduces exactly.
-/

namespace DailyRoutine

/-- A task record, as built by `TaskManager.addTask`. -/
structure Task where
  id : Nat
  title : String
  description : String
  category : String
  priority : String
  dueDate : String
  dueTime : String
  reminder : String
  repeat_ : String
  completed : Bool
  subtasks : List String
  createdAt : String
deriving Repr, DecidableEq

/-- Caller-supplied input to `addTask`; every field except `title` may be
absent (`undefined` in JS). -/
structure TaskData where
  title : String
  description : Option String
  category : Option String
  priority : Option String
  dueDate : Option String
  dueTime : Option String
  reminder : Option String
  repeat_ : Option String
  subtasks : Option (List String)
deriving Repr, DecidableEq

/-- JS `x || d` on an optional string field: `undefined` and the empty
string are falsy and yield the default. -/
def jsOrString (o : Option String) (d : String) : String :=
  match o with
  | none => d
  | some s => if s = "" then d else s

/-- State of a `TaskManager` instance: its `tasks` array plus a counter
of `saveTasks` (localStorage) writes. -/
structure TaskStore where
  tasks : List Task
  saveCount : Nat
deriving Repr, DecidableEq

/-- The store of a fresh manager when nothing is persisted. -/
def emptyTaskStore : TaskStore := { tasks := [], saveCount := 0 }

/-- `TaskManager.addTask(taskData)`: builds the task record with
defaulted fields, pushes it at the end, saves, returns it. -/
def addTask (taskData : TaskData) (nowMs : Nat) (nowISO : String)
    (s : TaskStore) : Task × TaskStore :=
  let task : Task :=
    { id := nowMs
      title := taskData.title
      description := jsOrString taskData.description ""
      category := jsOrString taskData.category ""
      priority := jsOrString taskData.priority "medium"
      dueDate := jsOrString taskData.dueDate ""
      dueTime := jsOrString taskData.dueTime ""
      reminder := jsOrString taskData.reminder "none"
      repeat_ := jsOrString taskData.repeat_ "none"
      completed := false
      subtasks := taskData.subtasks.getD []
      createdAt := nowISO }
  (task, { tasks := s.tasks ++ [task], saveCount := s.saveCount + 1 })

/-- `TaskManager.deleteTask(taskId)`: keeps the tasks whose id differs,
then saves. -/
def deleteTask (taskId : Nat) (s : TaskStore) : TaskStore :=
  { tasks := s.tasks.filter (fun t => t.id != taskId),
    saveCount := s.saveCount + 1 }

/-- A partial update object for `Object.assign(task, updates)`: present
fields overwrite the task's fields. -/
structure TaskUpdates where
  id : Option Nat
  title : Option String
  description : Option String
  category : Option String
  priority : Option String
  dueDate : Option String
  dueTime : Option String
  reminder : Option String
  repeat_ : Option String
  completed : Option Bool
  subtasks : Option (List String)
  createdAt : Option String
deriving Repr, DecidableEq

/-- `Object.assign(task, updates)` restricted to the task fields. -/
def assignTask (t : Task) (u : TaskUpdates) : Task :=
  { id := u.id.getD t.id
    title := u.title.getD t.title
    description := u.description.getD t.description
    category := u.category.getD t.category
    priority := u.priority.getD t.priority
    dueDate := u.dueDate.getD t.dueDate
    dueTime := u.dueTime.getD t.dueTime
    reminder := u.reminder.getD t.reminder
    repeat_ := u.repeat_.getD t.repeat_
    completed := u.completed.getD t.completed
    subtasks := u.subtasks.getD t.subtasks
    createdAt := u.createdAt.getD t.createdAt }

/-- In-place mutation of the first array element satisfying `p`,
as done by `this.tasks.find(...)` followed by assignment. -/
def updateFirst (p : Task → Bool) (f : Task → Task) : List Task → List Task
  | [] => []
  | t :: ts => if p t then f t :: ts else t :: updateFirst p f ts

/-- `TaskManager.updateTask(taskId, updates)`: merges into the first
matching task and saves if found; returns the (updated) task or
`undefined`. -/
def updateTask (taskId : Nat) (updates : TaskUpdates) (s : TaskStore) :
    Option Task × TaskStore :=
  match s.tasks.find? (fun t => t.id == taskId) with
  | some t =>
      (some (assignTask t updates),
       { tasks := updateFirst (fun u => u.id == taskId)
                    (fun u => assignTask u updates) s.tasks,
         saveCount := s.saveCount + 1 })
  | none => (none, s)

/-- `TaskManager.toggleTask(taskId)`: flips `completed` on the first
matching task and saves if found; returns the (updated) task or
`undefined`. -/
def toggleTask (taskId : Nat) (s : TaskStore) : Option Task × TaskStore :=
  match s.tasks.find? (fun t => t.id == taskId) with
  | some t =>
      (some { t with completed := !t.completed },
       { tasks := updateFirst (fun u => u.id == taskId)
                    (fun u => { u with completed := !u.completed }) s.tasks,
         saveCount := s.saveCount + 1 })
  | none => (none, s)

/-- `TaskManager.getAllTasks()`. -/
def getAllTasks (s : TaskStore) : List Task := s.tasks

/-- `TaskManager.getCompletedTasks()`. -/
def getCompletedTasks (s : TaskStore) : List Task :=
  s.tasks.filter (fun t => t.completed)

/-- `TaskManager.getPendingTasks()`. -/
def getPendingTasks (s : TaskStore) : List Task :=
  s.tasks.filter (fun t => !t.completed)

/-- `TaskManager.getTasksByCategory(category)`. -/
def getTasksByCategory (category : String) (s : TaskStore) : List Task :=
  s.tasks.filter (fun t => t.category == category)

/-- `TaskManager.getTasksByPriority(priority)`. -/
def getTasksByPriority (priority : String) (s : TaskStore) : List Task :=
  s.tasks.filter (fun t => t.priority == priority)

/-- `TaskManager.getTodayTasks()`: string equality of `dueDate` against
today's `YYYY-MM-DD` string. -/
def getTodayTasks (today : String) (s : TaskStore) : List Task :=
  s.tasks.filter (fun t => t.dueDate == today)

/-- `TaskManager.getUpcomingTasks()`: JS `task.dueDate > today`, a
lexicographic string comparison. -/
def getUpcomingTasks (today : String) (s : TaskStore) : List Task :=
  s.tasks.filter (fun t => decide (today < t.dueDate))

/-- JS `Math.round(num / den)` for nonnegative integers: half rounds up,
`floor (num / den + 1 / 2)`. -/
def jsRoundDiv (num den : Nat) : Nat := (2 * num + den) / (2 * den)

/-- `TaskManager.getCompletionPercentage()`. -/
def getCompletionPercentage (s : TaskStore) : Nat :=
  if s.tasks.length = 0 then 0
  else jsRoundDiv (100 * (getCompletedTasks s).length) s.tasks.length

/-- `TaskManager.getRemainingTasksCount()`. -/
def getRemainingTasksCount (s : TaskStore) : Nat :=
  (getPendingTasks s).length

/-- The flat settings record; its fields are exactly the keys written by
`SettingsManager.getDefaultSettings`. -/
structure Settings where
  theme : String
  fontSize : String
  pushNotifications : Bool
  emailReminders : Bool
  soundEffects : Bool
  showCompletedTasks : Bool
  sortBy : String
  recurringTasks : Bool
  twoFactor : Bool
  darkMode : Bool
deriving Repr, DecidableEq

/-- `SettingsManager.getDefaultSettings()`. -/
def getDefaultSettings : Settings :=
  { theme := "light"
    fontSize := "medium"
    pushNotifications := true
    emailReminders := false
    soundEffects := true
    showCompletedTasks := true
    sortBy := "dueDate"
    recurringTasks := true
    twoFactor := false
    darkMode := false }

/-- `SettingsManager.loadSettings()`: the persisted record if one is
stored, else the defaults. -/
def loadSettings (stored : Option Settings) : Settings :=
  match stored with
  | some s => s
  | none => getDefaultSettings

/-- State of a `SettingsManager` instance. -/
structure SettingsStore where
  settings : Settings
deriving Repr, DecidableEq

/-- `new SettingsManager()` with the given persisted record (if any). -/
def mkSettingsStore (stored : Option Settings) : SettingsStore :=
  { settings := loadSettings stored }

/-- `SettingsManager.getAllSettings()`. -/
def getAllSettings (m : SettingsStore) : Settings := m.settings

/-- A notification history entry, as built by
`NotificationManager.addNotification`. -/
structure Notification where
  id : Nat
  message : String
  type_ : String
  timestamp : String
  read : Bool
deriving Repr, DecidableEq

/-- State of a `NotificationManager` instance: its newest-first
`notifications` array plus a counter of `saveNotifications` writes. -/
structure NotifStore where
  notifications : List Notification
  saveCount : Nat
deriving Repr, DecidableEq

/-- `NotificationManager.addNotification(message, type)`: unshifts a new
unread entry, truncates to 50 entries when the length exceeds 50, and
saves. -/
def addNotification (message type_ : String) (nowMs : Nat) (nowISO : String)
    (s : NotifStore) : NotifStore :=
  let n : Notification :=
    { id := nowMs, message := message, type_ := type_,
      timestamp := nowISO, read := false }
  let l := n :: s.notifications
  let l := if l.length > 50 then l.take 50 else l
  { notifications := l, saveCount := s.saveCount + 1 }

/-- `NotificationManager.getUnreadCount()`. -/
def getUnreadCount (s : NotifStore) : Nat :=
  (s.notifications.filter (fun n => !n.read)).length

/-- `NotificationManager.markAllAsRead()`: sets `read` on every entry
and saves. -/
def markAllAsRead (s : NotifStore) : NotifStore :=
  { notifications := s.notifications.map (fun n => { n with read := true }),
    saveCount := s.saveCount + 1 }

/-- Splitting a list by a boolean predicate preserves its length. -/
theorem length_filter_add_length_filter_not (p : Task → Bool) (l : List Task) :
    (l.filter p).length + (l.filter (fun t => !p t)).length = l.length := by
  induction l with
  | nil => rfl
  | cons t ts ih =>
    cases hp : p t <;> simp [List.filter_cons, hp] <;> omega

/-- C9: with no persisted settings record, `getAllSettings` returns
exactly the documented default record: `theme = "light"`,
`fontSize = "medium"`, `pushNotifications = true`,
`emailReminders = false`, `soundEffects = true`,
`showCompletedTasks = true`, `sortBy = "dueDate"`,
`recurringTasks = true`, `twoFactor = false`, `darkMode = false`,
and (by the shape of `Settings`) no other key. -/
theorem getAllSettings_defaults_of_no_persisted :
    getAllSettings (mkSettingsStore none) =
      { theme := "light"
        fontSize := "medium"
        pushNotifications := true
        emailReminders := false
        soundEffects := true
        showCompletedTasks := true
        sortBy := "dueDate"
        recurringTasks := true
        twoFactor := false
        darkMode := false } := rfl

/-- C8: after `markAllAsRead` the unread count is 0 and every entry is
read, and a second `markAllAsRead` leaves the history identical. -/
theorem markAllAsRead_spec (s : NotifStore) :
    getUnreadCount (markAllAsRead s) = 0 ∧
    (∀ n ∈ (markAllAsRead s).notifications, n.read = true) ∧
    (markAllAsRead (markAllAsRead s)).notifications =
      (markAllAsRead s).notifications := by
  refine ⟨?_, ?_, ?_⟩
  · simp [getUnreadCount, markAllAsRead, List.filter_map]
  · intro n hn
    simp [markAllAsRead] at hn
    obtain ⟨m, _, rfl⟩ := hn
    rfl
  · simp [markAllAsRead, List.map_map]

/-- C10: `getCompletedTasks` and `getPendingTasks` partition
`getAllTasks`: membership in each is decided exactly by the `completed`
flag, both preserve the collection's order (sublists), their lengths sum
to the total, and `getRemainingTasksCount` is total minus completed. -/
theorem completed_pending_partition (s : TaskStore) :
    (∀ t, t ∈ getCompletedTasks s ↔ t ∈ getAllTasks s ∧ t.completed = true) ∧
    (∀ t, t ∈ getPendingTasks s ↔ t ∈ getAllTasks s ∧ t.completed = false) ∧
    (getCompletedTasks s).Sublist (getAllTasks s) ∧
    (getPendingTasks s).Sublist (getAllTasks s) ∧
    (getCompletedTasks s).length + (getPendingTasks s).length =
      (getAllTasks s).length ∧
    getRemainingTasksCount s =
      (getAllTasks s).length - (getCompletedTasks s).length := by
  have hlen := length_filter_add_length_filter_not (fun t => t.completed) s.tasks
  refine ⟨?_, ?_, ?_, ?_, ?_, ?_⟩
  · intro t; simp [getCompletedTasks, getAllTasks, List.mem_filter]
  · intro t; simp [getPendingTasks, getAllTasks, List.mem_filter]
  · exact List.filter_sublist _
  · exact List.filter_sublist _
  · simpa [getCompletedTasks, getPendingTasks, getAllTasks] using hlen
  · simp only [getRemainingTasksCount, getPendingTasks, getCompletedTasks,
      getAllTasks] at *
    omega

/-- C3: for every `today` string, `getTodayTasks` holds exactly the
tasks whose `dueDate` string-equals `today`, and `getUpcomingTasks`
exactly those whose `dueDate` is lexicographically greater than `today`;
no completedness condition is involved. -/
theorem dueToday_dueUpcoming_spec (today : String) (s : TaskStore) (t : Task) :
    (t ∈ getTodayTasks today s ↔ t ∈ getAllTasks s ∧ t.dueDate = today) ∧
    (t ∈ getUpcomingTasks today s ↔ t ∈ getAllTasks s ∧ today < t.dueDate) := by
  constructor
  · simp [getTodayTasks, getAllTasks, List.mem_filter]
  · simp [getUpcomingTasks, getAllTasks, List.mem_filter]

/-- A concrete notification entry used to instantiate general theorems. -/
def sampleNotif : Notification :=
  { id := 0, message := "", type_ := "info", timestamp := "", read := false }

/-- A concrete task used to instantiate general theorems. -/
def sampleTask (i : Nat) (c : Bool) : Task :=
  { id := i, title := "t", description := "", category := "",
    priority := "medium", dueDate := "", dueTime := "", reminder := "none",
    repeat_ := "none", completed := c, subtasks := [], createdAt := "" }

/-- C1: `addNotification` leaves at most 50 entries, puts the new entry
at the front, keeps the surviving old entries in order (the tail is a
prefix of the old history), and when the history already holds exactly
50 entries the result is the new entry followed by all old entries
except the last (oldest). -/
theorem addNotification_cap_spec (message type_ : String) (nowMs : Nat)
    (nowISO : String) (s : NotifStore) :
    (addNotification message type_ nowMs nowISO s).notifications.length ≤ 50 ∧
    (addNotification message type_ nowMs nowISO s).notifications.head? =
      some { id := nowMs, message := message, type_ := type_,
             timestamp := nowISO, read := false } ∧
    (addNotification message type_ nowMs nowISO s).notifications.tail =
      s.notifications.take 49 ∧
    (s.notifications.length = 50 →
      (addNotification message type_ nowMs nowISO s).notifications =
        { id := nowMs, message := message, type_ := type_,
          timestamp := nowISO, read := false } :: s.notifications.dropLast) := by
  have hres : (addNotification message type_ nowMs nowISO s).notifications =
      if s.notifications.length + 1 > 50
      then ({ id := nowMs, message := message, type_ := type_,
              timestamp := nowISO, read := false } : Notification)
             :: s.notifications.take 49
      else { id := nowMs, message := message, type_ := type_,
             timestamp := nowISO, read := false } :: s.notifications := by
    simp only [addNotification, List.length_cons]
    by_cases h : s.notifications.length + 1 > 50
    · simp only [h, if_pos]
      rw [show (50 : Nat) = 49 + 1 from rfl, List.take_succ_cons]
    · simp only [h, if_neg, not_false_iff]
  by_cases h : s.notifications.length + 1 > 50
  · rw [hres, if_pos h]
    refine ⟨?_, rfl, rfl, ?_⟩
    · simp only [List.length_cons, List.length_take]
      omega
    · intro h50
      rw [List.dropLast_eq_take, h50]
  · rw [hres, if_neg h]
    refine ⟨?_, rfl, ?_, ?_⟩
    · simp only [List.length_cons]
      omega
    · simp only [List.tail_cons]
      rw [List.take_of_length_le (by omega)]
    · intro h50
      omega

/-- Witness for C1: on a history of exactly 50 entries, the recorded
entry lands in front and the oldest entry is dropped. -/
theorem addNotification_cap_spec_w :
    (addNotification "m" "info" 7 "ts"
        { notifications := List.replicate 50 sampleNotif,
          saveCount := 0 }).notifications =
      { id := 7, message := "m", type_ := "info", timestamp := "ts",
        read := false } :: (List.replicate 50 sampleNotif).dropLast :=
  (addNotification_cap_spec "m" "info" 7 "ts" _).2.2.2 (by simp)

/-- `jsRoundDiv` is round-half-up of the rational quotient. -/
theorem jsRoundDiv_eq_floor (num den : Nat) (h : 0 < den) :
    jsRoundDiv num den =
      Nat.floor (((num : ℚ)) / (den : ℚ) + 1 / 2) := by
  have hd : (den : ℚ) ≠ 0 := by positivity
  have hq : ((num : ℚ)) / (den : ℚ) + 1 / 2 =
      ((2 * num + den : ℕ) : ℚ) / ((2 * den : ℕ) : ℚ) := by
    push_cast
    field_simp
    ring
  rw [hq, Nat.floor_div_eq_div]
  rfl

/-- C4: `getCompletionPercentage` is 0 on the empty collection (no
division happens), and otherwise rounds `completed / total × 100` half
up; in particular 3 tasks with 1 completed give 33 percent and 2
remaining. -/
theorem completionPercentage_spec (s : TaskStore) :
    (s.tasks.length = 0 → getCompletionPercentage s = 0) ∧
    (0 < s.tasks.length →
      getCompletionPercentage s =
        Nat.floor (((100 * (getCompletedTasks s).length : ℕ) : ℚ) /
          ((s.tasks.length : ℕ) : ℚ) + 1 / 2)) ∧
    (s.tasks.length = 3 → (getCompletedTasks s).length = 1 →
      getCompletionPercentage s = 33 ∧ getRemainingTasksCount s = 2) := by
  refine ⟨?_, ?_, ?_⟩
  · intro h
    simp [getCompletionPercentage, h]
  · intro h
    have h0 : ¬ s.tasks.length = 0 := by omega
    simp only [getCompletionPercentage, h0, if_false]
    exact jsRoundDiv_eq_floor _ _ h
  · intro h3 h1
    constructor
    · simp only [getCompletionPercentage, h3, h1]
      norm_num [jsRoundDiv]
    · have hlen := length_filter_add_length_filter_not
        (fun t => t.completed) s.tasks
      simp only [getRemainingTasksCount, getPendingTasks,
        getCompletedTasks] at *
      omega

/-- Witness for C4: a concrete collection of 3 tasks with 1 completed
yields percentage 33 and remaining count 2. -/
theorem completionPercentage_spec_w :
    getCompletionPercentage
        { tasks := [sampleTask 1 true, sampleTask 2 false, sampleTask 3 false],
          saveCount := 0 } = 33 ∧
    getRemainingTasksCount
        { tasks := [sampleTask 1 true, sampleTask 2 false, sampleTask 3 false],
          saveCount := 0 } = 2 :=
  (completionPercentage_spec _).2.2 rfl rfl

/-- Finding after an in-place update of the first match: when the
update does not change whether an element matches, the found element is
the updated one. -/
theorem find?_updateFirst (p : Task → Bool) (f : Task → Task)
    (hf : ∀ t, p (f t) = p t) (l : List Task) :
    (updateFirst p f l).find? p = (l.find? p).map f := by
  induction l with
  | nil => rfl
  | cons t ts ih =>
    by_cases h : p t = true
    · rw [updateFirst, if_pos h, List.find?_cons_of_pos _ ((hf t).trans h),
        List.find?_cons_of_pos _ h]
      rfl
    · have h' : ¬ p t = true := h
      rw [updateFirst, if_neg h',
        List.find?_cons_of_neg _ h', List.find?_cons_of_neg _ h', ih]

/-- Two successive in-place updates of the first match compose, when
the first update does not change whether an element matches. -/
theorem updateFirst_comp (p : Task → Bool) (f g : Task → Task)
    (hg : ∀ t, p (g t) = p t) (l : List Task) :
    updateFirst p f (updateFirst p g l) =
      updateFirst p (fun t => f (g t)) l := by
  induction l with
  | nil => rfl
  | cons t ts ih =>
    by_cases h : p t = true
    · simp only [updateFirst, if_pos h, if_pos ((hg t).trans h)]
    · simp only [updateFirst, if_neg h, ih]

/-- An in-place update by a pointwise identity changes nothing. -/
theorem updateFirst_id_of (p : Task → Bool) (f : Task → Task)
    (hf : ∀ t, f t = t) (l : List Task) :
    updateFirst p f l = l := by
  induction l with
  | nil => rfl
  | cons t ts ih =>
    by_cases h : p t = true <;> simp only [updateFirst, if_pos, if_neg, h,
      hf t, ih, if_true, if_false, Bool.false_eq_true, not_false_iff]

/-- C5: on a collection containing a task with the given id, toggling
that id twice restores the whole collection, flag and all other tasks
included. -/
theorem toggleTask_involutive (s : TaskStore) (i : Nat)
    (h : ∃ t ∈ s.tasks, t.id = i) :
    ((toggleTask i (toggleTask i s).2).2).tasks = s.tasks := by
  obtain ⟨t0, ht0, hid⟩ := h
  obtain ⟨u, hu⟩ : ∃ u, s.tasks.find? (fun t => t.id == i) = some u := by
    cases hfind : s.tasks.find? (fun t => t.id == i) with
    | some u => exact ⟨u, rfl⟩
    | none =>
      have := List.find?_eq_none.mp hfind t0 ht0
      simp [hid] at this
  simp only [toggleTask, hu]
  have hfind2 : (updateFirst (fun t => t.id == i)
      (fun t => { t with completed := !t.completed }) s.tasks).find?
      (fun t => t.id == i) =
      some { u with completed := !u.completed } := by
    rw [find?_updateFirst (fun t => t.id == i)
      (fun t => { t with completed := !t.completed }) (fun t => rfl), hu]
    rfl
  simp only [hfind2]
  rw [updateFirst_comp (fun t => t.id == i)
    (fun t => { t with completed := !t.completed })
    (fun t => { t with completed := !t.completed }) (fun t => rfl)]
  exact updateFirst_id_of (fun t => t.id == i)
    (fun t => { { t with completed := !t.completed } with
                  completed := !(!t.completed) })
    (fun t => by cases t; simp) s.tasks

/-- Witness for C5: toggling an existing id twice on a concrete
two-task collection restores it. -/
theorem toggleTask_involutive_w :
    ((toggleTask 2 (toggleTask 2
        { tasks := [sampleTask 1 true, sampleTask 2 false],
          saveCount := 0 }).2).2).tasks =
      [sampleTask 1 true, sampleTask 2 false] :=
  toggleTask_involutive _ 2 ⟨sampleTask 2 false, by simp, rfl⟩

/-- C6: updating a non-existent id returns `none`, leaves the
collection unchanged, and performs no persistence write (the save
counter is untouched). -/
theorem updateTask_absent (s : TaskStore) (i : Nat) (u : TaskUpdates)
    (h : ∀ t ∈ s.tasks, t.id ≠ i) :
    (updateTask i u s).1 = none ∧
    (updateTask i u s).2.tasks = s.tasks ∧
    (updateTask i u s).2.saveCount = s.saveCount := by
  have hfind : s.tasks.find? (fun t => t.id == i) = none := by
    rw [List.find?_eq_none]
    intro t ht
    simp [h t ht]
  simp [updateTask, hfind]

/-- A concrete partial-update object. -/
def sampleUpdates : TaskUpdates :=
  { id := none, title := some "x", description := none, category := none,
    priority := none, dueDate := none, dueTime := none, reminder := none,
    repeat_ := none, completed := none, subtasks := none, createdAt := none }

/-- Witness for C6: updating id 99 on a collection holding only id 1 is
a no-op returning `none`. -/
theorem updateTask_absent_w :
    (updateTask 99 sampleUpdates
        { tasks := [sampleTask 1 true], saveCount := 0 }).1 = none ∧
    (updateTask 99 sampleUpdates
        { tasks := [sampleTask 1 true], saveCount := 0 }).2.tasks =
      [sampleTask 1 true] ∧
    (updateTask 99 sampleUpdates
        { tasks := [sampleTask 1 true], saveCount := 0 }).2.saveCount = 0 :=
  updateTask_absent _ 99 sampleUpdates (by decide)

/-- C7: `addTask` appends exactly one task at the end and returns it;
the returned task keeps the given title, is never completed, carries the
time-based id and creation timestamp, and every absent optional field
takes its documented default. -/
theorem addTask_spec (d : TaskData) (nowMs : Nat) (nowISO : String)
    (s : TaskStore) :
    (addTask d nowMs nowISO s).2.tasks =
      s.tasks ++ [(addTask d nowMs nowISO s).1] ∧
    (addTask d nowMs nowISO s).1.title = d.title ∧
    (addTask d nowMs nowISO s).1.completed = false ∧
    (addTask d nowMs nowISO s).1.id = nowMs ∧
    (addTask d nowMs nowISO s).1.createdAt = nowISO ∧
    (d.priority = none → (addTask d nowMs nowISO s).1.priority = "medium") ∧
    (d.description = none → (addTask d nowMs nowISO s).1.description = "") ∧
    (d.category = none → (addTask d nowMs nowISO s).1.category = "") ∧
    (d.dueDate = none → (addTask d nowMs nowISO s).1.dueDate = "") ∧
    (d.dueTime = none → (addTask d nowMs nowISO s).1.dueTime = "") ∧
    (d.reminder = none → (addTask d nowMs nowISO s).1.reminder = "none") ∧
    (d.repeat_ = none → (addTask d nowMs nowISO s).1.repeat_ = "none") ∧
    (d.subtasks = none → (addTask d nowMs nowISO s).1.subtasks = []) := by
  refine ⟨rfl, rfl, rfl, rfl, rfl, ?_, ?_, ?_, ?_, ?_, ?_, ?_, ?_⟩ <;>
    (intro h; simp [addTask, jsOrString, h])

/-- A concrete `addTask` input with every optional field absent. -/
def sampleData : TaskData :=
  { title := "Buy milk", description := none, category := none,
    priority := none, dueDate := none, dueTime := none, reminder := none,
    repeat_ := none, subtasks := none }

/-- Witness for C7: with all optional fields absent, the created task
gets priority "medium" and is not completed. -/
theorem addTask_spec_w :
    (addTask sampleData 5 "ts" emptyTaskStore).1.priority = "medium" ∧
    (addTask sampleData 5 "ts" emptyTaskStore).1.completed = false :=
  ⟨(addTask_spec sampleData 5 "ts" emptyTaskStore).2.2.2.2.2.1 rfl,
   (addTask_spec sampleData 5 "ts" emptyTaskStore).2.2.1⟩

/-- One mutating call to the task repository: an `addTask` with its
environmental inputs, or a `deleteTask`. -/
inductive TaskOp where
  | add (data : TaskData) (nowMs : Nat) (nowISO : String)
  | del (taskId : Nat)
deriving Repr, DecidableEq

/-- Apply one repository call to the store. -/
def applyOp (s : TaskStore) : TaskOp → TaskStore
  | TaskOp.add d ms iso => (addTask d ms iso s).2
  | TaskOp.del i => deleteTask i s

/-- Run a sequence of repository calls. -/
def runOps (s : TaskStore) : List TaskOp → TaskStore
  | [] => s
  | op :: rest => runOps (applyOp s op) rest

/-- The number of `add` calls in a sequence. -/
def numAdds : List TaskOp → Nat
  | [] => 0
  | TaskOp.add _ _ _ :: rest => numAdds rest + 1
  | TaskOp.del _ :: rest => numAdds rest

/-- The number of delete calls that found a task with their id present
at the moment of the call. -/
def numSuccessfulDeletes : TaskStore → List TaskOp → Nat
  | _, [] => 0
  | s, op :: rest =>
    (match op with
     | TaskOp.del i => if s.tasks.any (fun t => t.id == i) then 1 else 0
     | TaskOp.add _ _ _ => 0) + numSuccessfulDeletes (applyOp s op) rest

/-- The time-based ids assigned by the `add` calls of a sequence. -/
def addIds : List TaskOp → List Nat
  | [] => []
  | TaskOp.add _ ms _ :: rest => ms :: addIds rest
  | TaskOp.del _ :: rest => addIds rest

/-- Deleting an id present in a collection with pairwise-distinct ids
removes exactly one task. -/
theorem length_filter_ne_of_mem (i : Nat) (l : List Task)
    (hn : (l.map Task.id).Nodup) (t0 : Task) (ht0 : t0 ∈ l)
    (hid : t0.id = i) :
    (l.filter (fun t => t.id != i)).length + 1 = l.length := by
  induction l with
  | nil => cases ht0
  | cons t ts ih =>
    simp only [List.map_cons, List.nodup_cons] at hn
    by_cases h : t.id = i
    · have hts : ts.filter (fun x => x.id != i) = ts := by
        apply List.filter_eq_self.mpr
        intro x hx
        simp only [bne_iff_ne, ne_eq, decide_eq_true_eq]
        intro hxi
        have hmem : x.id ∈ ts.map Task.id := List.mem_map_of_mem Task.id hx
        rw [hxi, ← h] at hmem
        exact hn.1 hmem
      simp [List.filter_cons, h, hts]
    · have ht0' : t0 ∈ ts := by
        rcases List.mem_cons.mp ht0 with he | h'
        · exact absurd (he ▸ hid) h
        · exact h'
      have hrec := ih hn.2 ht0'
      rw [List.filter_cons, if_pos (by simp [h])]
      simp only [List.length_cons]
      omega

/-- Deleting an absent id removes nothing. -/
theorem filter_ne_of_not_mem (i : Nat) (l : List Task)
    (h : ∀ t ∈ l, t.id ≠ i) :
    l.filter (fun t => t.id != i) = l :=
  List.filter_eq_self.mpr (fun t ht => by simp [h t ht])

/-- Invariant step for C2: from any store whose task ids are pairwise
distinct and disjoint from the (pairwise-distinct) ids of the upcoming
adds, the final length plus the successful deletes equals the starting
length plus the adds. -/
theorem runOps_length_aux (ops : List TaskOp) :
    ∀ s : TaskStore,
      (s.tasks.map Task.id).Nodup →
      (addIds ops).Nodup →
      (∀ t ∈ s.tasks, t.id ∉ addIds ops) →
      (runOps s ops).tasks.length + numSuccessfulDeletes s ops =
        s.tasks.length + numAdds ops := by
  induction ops with
  | nil =>
    intro s _ _ _
    simp [runOps, numSuccessfulDeletes, numAdds]
  | cons op rest ih =>
    intro s hs hops hdisj
    cases op with
    | add d ms iso =>
      simp only [addIds, List.nodup_cons] at hops
      have hmsnotin : ms ∉ s.tasks.map Task.id := by
        intro hc
        obtain ⟨t, ht, hti⟩ := List.mem_map.mp hc
        exact hdisj t ht (by rw [hti]; exact List.mem_cons_self _ _)
      have hnodup' : (((addTask d ms iso s).2.tasks).map Task.id).Nodup := by
        simp only [addTask, List.map_append, List.map_cons, List.map_nil,
          List.nodup_append, List.nodup_cons, List.nodup_nil]
        refine ⟨hs, by simp, ?_⟩
        intro a ha
        simp only [List.mem_cons, List.not_mem_nil, or_false]
        intro he
        exact hmsnotin (he ▸ ha)
      have hdisj' : ∀ t ∈ (addTask d ms iso s).2.tasks,
          t.id ∉ addIds rest := by
        intro t ht
        simp only [addTask, List.mem_append, List.mem_cons,
          List.not_mem_nil, or_false] at ht
        rcases ht with ht | rfl
        · exact fun hc => hdisj t ht (List.mem_cons_of_mem _ hc)
        · exact hops.1
      have hkey := ih ((addTask d ms iso s).2) hnodup' hops.2 hdisj'
      simp only [runOps, applyOp, numSuccessfulDeletes, numAdds]
      have hlen : (addTask d ms iso s).2.tasks.length =
          s.tasks.length + 1 := by
        simp [addTask]
      omega
    | del i =>
      simp only [addIds] at hops hdisj
      have hsub : ((deleteTask i s).tasks.map Task.id).Sublist
          (s.tasks.map Task.id) :=
        (List.filter_sublist _).map Task.id
      have hnodup' : ((deleteTask i s).tasks.map Task.id).Nodup :=
        hsub.nodup hs
      have hdisj' : ∀ t ∈ (deleteTask i s).tasks, t.id ∉ addIds rest :=
        fun t ht => hdisj t (List.mem_of_mem_filter ht)
      have hkey := ih (deleteTask i s) hnodup' hops hdisj'
      simp only [runOps, applyOp, numSuccessfulDeletes, numAdds]
      by_cases hpres : s.tasks.any (fun t => t.id == i) = true
      · obtain ⟨t0, ht0, hid⟩ := List.any_eq_true.mp hpres
        have hid' : t0.id = i := by simpa using hid
        have hlen := length_filter_ne_of_mem i s.tasks hs t0 ht0 hid'
        rw [if_pos hpres]
        simp only [deleteTask] at hkey ⊢
        omega
      · have habs : ∀ t ∈ s.tasks, t.id ≠ i := by
          intro t ht hc
          exact hpres (List.any_eq_true.mpr ⟨t, ht, by simp [hc]⟩)
        have heq := filter_ne_of_not_mem i s.tasks habs
        rw [if_neg hpres]
        simp only [deleteTask, heq] at hkey ⊢
        omega

/-- C2: starting from the empty collection, for every sequence of add
and delete calls whose time-based add ids are pairwise distinct (the
spec's id-uniqueness invariant), the final `getAllTasks` length equals
the number of adds minus the number of successful deletes — a delete
being successful when a task with the given id was present. -/
theorem runOps_length_spec (ops : List TaskOp)
    (h : (addIds ops).Nodup) :
    (runOps emptyTaskStore ops).tasks.length =
      numAdds ops - numSuccessfulDeletes emptyTaskStore ops ∧
    (runOps emptyTaskStore ops).tasks.length +
      numSuccessfulDeletes emptyTaskStore ops = numAdds ops := by
  have hkey := runOps_length_aux ops emptyTaskStore
    (by simp [emptyTaskStore]) h (by simp [emptyTaskStore])
  have h0 : emptyTaskStore.tasks.length = 0 := rfl
  rw [h0] at hkey
  omega

/-- A concrete call sequence: two adds, one successful delete and one
unsuccessful delete. -/
def sampleOps : List TaskOp :=
  [TaskOp.add sampleData 1 "a", TaskOp.add sampleData 2 "a",
   TaskOp.del 1, TaskOp.del 7]

/-- Witness for C2: on the concrete sequence, 2 adds minus 1 successful
delete leave 1 task. -/
theorem runOps_length_spec_w :
    (runOps emptyTaskStore sampleOps).tasks.length = 1 :=
  ((runOps_length_spec sampleOps (by decide)).1).trans (by decide)

end DailyRoutine
